import Mathlib

/-!
Shallow embedding of the scam-detection backend (Python sources under
backend/) and proofs about it.  The embedding covers:

* backend/services/llm_analysis.py : analyze_transcript, get_default_analysis
  (prompt framing, markdown-fence stripping, brace-counting JSON extraction,
  field coercion, fallback to the default analysis);
* backend/services/context_manager.py : TranscriptContext (bounded deque of
  transcript fragments with timestamps, window query, no-op on blank text);
* backend/services/transcription.py : transcribe_audio (small-payload
  short-circuit);
* backend/main.py : the context-selection logic of the /analyze and
  /process-and-analyze handlers.

Remote HTTP calls are modelled by an explicit outcome parameter (timeout,
network error, status + parsed-JSON body); a Python exception anywhere in the
handler is modelled as the Option value none at the step that raised, since
the source catches every exception in one handler and falls back.  Machine
floats are modelled as exact rationals: the values the code moves around are
only parsed, defaulted and carried through, never rounded.  datetime.now()
values are modelled as integer timestamps passed in explicitly.
-/

namespace ScamDetect

/-! ### Characters that the token rules keep out of literals -/

def braceOpen : Char := Char.ofNat 123

def braceClose : Char := Char.ofNat 125

def backtick : Char := Char.ofNat 96

/-! ### Python string helpers -/

/-- Python whitespace as used by str.strip() and the regex class \s
(ASCII part: space, tab, newline, vertical tab, form feed, carriage return).
The sources only ever meet ASCII text here. -/
def isPyWs (c : Char) : Bool :=
  c = ' ' || c = '\t' || c = '\n' || c = '\r' || c = Char.ofNat 11 || c = Char.ofNat 12

/-- Python str.strip() with no argument: drop whitespace from both ends. -/
def pyStrip (s : String) : String :=
  String.mk (((s.data.dropWhile isPyWs).reverse.dropWhile isPyWs).reverse)

/-- Python str.lower() (ASCII case mapping; the code only lower-cases
risk levels such as "HIGH"). -/
def pyLower (s : String) : String :=
  String.mk (s.data.map Char.toLower)

/-! ### Markdown fence removal, llm_analysis.py lines 201-202

The source runs two re.sub passes over the raw model output:
first the pattern of three backticks, an optional literal "json", then \s*;
second the same without the "json" option.  re.sub scans left to right and
removes non-overlapping matches. -/

/-- Consume a literal "json" if it is next (the optional group of the
first fence pattern). -/
def dropJsonWord (cs : List Char) : List Char :=
  match cs with
  | 'j' :: 's' :: 'o' :: 'n' :: rest => rest
  | _ => cs

/-- Try to match one fence pattern at the head of the text: three backticks,
optionally the word "json" (first pass only), then a maximal whitespace run.
Returns the rest of the text after the match. -/
def fenceMatch (withJson : Bool) (cs : List Char) : Option (List Char) :=
  match cs with
  | c1 :: c2 :: c3 :: rest =>
    if c1 = backtick && c2 = backtick && c3 = backtick then
      some ((if withJson then dropJsonWord rest else rest).dropWhile isPyWs)
    else none
  | _ => none

/-- One re.sub pass: walk the text, removing every leftmost fence match and
keeping all other characters.  Fuel bounds the walk; every step consumes at
least one character, so fuel = length suffices. -/
def pySubFence (withJson : Bool) : Nat → List Char → List Char
  | 0, _ => []
  | _, [] => []
  | fuel + 1, c :: rest =>
    match fenceMatch withJson (c :: rest) with
    | some rest2 => pySubFence withJson fuel rest2
    | none => c :: pySubFence withJson fuel rest

/-- Lines 201-202 of llm_analysis.py: both re.sub passes, then .strip(). -/
def cleanContent (content : String) : String :=
  let p1 := pySubFence true (content.data.length + 1) content.data
  let p2 := pySubFence false (p1.length + 1) p1
  pyStrip (String.mk p2)

/-! ### Brace-counting JSON extraction, llm_analysis.py lines 206-222 -/

/-- Contribution of one character to the running brace count. -/
def braceDelta (c : Char) : Int :=
  if c = braceOpen then 1 else if c = braceClose then -1 else 0

/-- Net brace balance of a character list. -/
def braceBal (cs : List Char) : Int :=
  (cs.map braceDelta).sum

/-- The loop of lines 210-219: walk the text keeping a brace count, and
report how many characters were consumed when a closing brace brings the
count to zero (the Python end = i + 1 relative to the scan start).  Returns
none when the loop ends without the count reaching zero (Python leaves
end == start and takes the warning branch). -/
def scanBrace : List Char → Int → Option Nat
  | [], _ => none
  | c :: rest, count =>
    if c = braceOpen then (scanBrace rest (count + 1)).map (· + 1)
    else if c = braceClose then
      if count - 1 = 0 then some 1 else (scanBrace rest (count - 1)).map (· + 1)
    else (scanBrace rest count).map (· + 1)

/-- True of characters other than the opening brace; content_cleaned.find
of the opening brace is modelled with dropWhile of this predicate. -/
def notOpenBrace (c : Char) : Bool := !(c = braceOpen)

/-- Lines 206-222: find the first opening brace (none when absent, the Python
start == -1 branch), then run the brace-counting loop and slice the span
content_cleaned[start:end]. -/
def extractJsonStr (cleaned : String) : Option String :=
  match cleaned.data.dropWhile notOpenBrace with
  | [] => none
  | c :: rest =>
    match scanBrace (c :: rest) 0 with
    | some n => some (String.mk ((c :: rest).take n))
    | none => none

/-- Modelled from the words of the spec for comparison with extractJsonStr:
"locate the outermost balanced brace pair in the response text
(brace-counting scan, not naive first/last index)".  From the first opening
brace, the span is the shortest nonempty prefix whose brace balance is zero;
List.range.find? picks the least such length. -/
def specOutermostSpan (cleaned : String) : Option String :=
  match cleaned.data.dropWhile notOpenBrace with
  | [] => none
  | c :: rest =>
    match (List.range ((c :: rest).length + 1)).find?
        (fun n => decide (1 ≤ n) && decide (braceBal ((c :: rest).take n) = 0)) with
    | some n => some (String.mk ((c :: rest).take n))
    | none => none

/-! ### JSON values and json.loads -/

/-- Exact decimal number: the value mant * 10 ^ exp10.  Python parses JSON
numbers to int/float; nothing downstream rounds or compares them, the values
are only defaulted and carried through, so the exact decimal is the faithful
observable and stays kernel-computable. -/
structure PyNum where
  mant : Int
  exp10 : Int
deriving DecidableEq, Repr

/-- The rational value of an exact decimal. -/
def PyNum.toRat (x : PyNum) : ℚ := (x.mant : ℚ) * (10 : ℚ) ^ x.exp10

/-- JSON values as the Python json module produces them.  The nonstandard
Infinity/NaN extensions of the Python json have no exact value and are
modelled as a parse failure; no code path in this repository feeds them. -/
inductive Json where
  | null
  | bool (b : Bool)
  | num (q : PyNum)
  | str (s : String)
  | arr (xs : List Json)
  | obj (kvs : List (String × Json))

/-- Python dict lookup on the parsed object: a duplicated key keeps the
last value, so search the pair list from the right. -/
def jsonGet (kvs : List (String × Json)) (k : String) : Option Json :=
  (kvs.reverse.find? (fun p => p.1 == k)).map (fun p => p.2)

/-- JSON whitespace (the four characters the JSON grammar allows). -/
def isJsonWs (c : Char) : Bool :=
  c = ' ' || c = '\t' || c = '\n' || c = '\r'

def skipWs (cs : List Char) : List Char := cs.dropWhile isJsonWs

def hexVal (c : Char) : Option Nat :=
  if '0' ≤ c ∧ c ≤ '9' then some (c.toNat - 48)
  else if 'a' ≤ c ∧ c ≤ 'f' then some (c.toNat - 87)
  else if 'A' ≤ c ∧ c ≤ 'F' then some (c.toNat - 70)
  else none

/-- JSON string body after the opening quote: strict mode, so raw control
characters fail and only the standard escapes are accepted.  (Lone
surrogate escapes, which Python would pair or reject, are out of scope for
the data of this repository and map to the replacement of Char.ofNat.) -/
def parseJString : Nat → List Char → List Char → Option (String × List Char)
  | 0, _, _ => none
  | _, [], _ => none
  | fuel + 1, c :: rest, acc =>
    if c = '"' then some (String.mk acc.reverse, rest)
    else if c = '\\' then
      match rest with
      | [] => none
      | e :: rest2 =>
        if e = '"' then parseJString fuel rest2 ('"' :: acc)
        else if e = '\\' then parseJString fuel rest2 ('\\' :: acc)
        else if e = '/' then parseJString fuel rest2 ('/' :: acc)
        else if e = 'b' then parseJString fuel rest2 (Char.ofNat 8 :: acc)
        else if e = 'f' then parseJString fuel rest2 (Char.ofNat 12 :: acc)
        else if e = 'n' then parseJString fuel rest2 ('\n' :: acc)
        else if e = 'r' then parseJString fuel rest2 ('\r' :: acc)
        else if e = 't' then parseJString fuel rest2 ('\t' :: acc)
        else if e = 'u' then
          match rest2 with
          | a :: b :: c2 :: d :: rest3 =>
            match hexVal a, hexVal b, hexVal c2, hexVal d with
            | some x, some y, some z, some w =>
              parseJString fuel rest3 (Char.ofNat (((x * 16 + y) * 16 + z) * 16 + w) :: acc)
            | _, _, _, _ => none
          | _ => none
        else none
    else if c.toNat < 32 then none
    else parseJString fuel rest (c :: acc)

def digitSpan (cs : List Char) : List Char × List Char :=
  (cs.takeWhile Char.isDigit, cs.dropWhile Char.isDigit)

def digitsToNat (ds : List Char) : Nat :=
  ds.foldl (fun a c => a * 10 + (c.toNat - 48)) 0

/-- Build the exact decimal of a literal with optional fraction digits and
signed exponent digits: all the digits become the mantissa and the fraction
length shifts the exponent. -/
def decToNum (neg : Bool) (intDs fracDs : List Char) (esign : Bool) (expDs : List Char) : PyNum :=
  let allDs : Nat := digitsToNat (intDs ++ fracDs)
  let m : Int := if neg then -(allDs : Int) else (allDs : Int)
  let e : Int := (if esign then -(digitsToNat expDs : Int) else (digitsToNat expDs : Int))
    - (fracDs.length : Int)
  { mant := m, exp10 := e }

/-- JSON number grammar: optional minus, an integer part that is 0 or starts
with a nonzero digit, an optional fraction that needs at least one digit,
an optional exponent that needs at least one digit.  A run of extra digits
after a leading 0 is left unconsumed and makes the surrounding parse fail,
exactly as the Python scanner regex does. -/
def parseNumber (cs : List Char) : Option (PyNum × List Char) :=
  let signSplit : Bool × List Char :=
    match cs with
    | c :: rest => if c = '-' then (true, rest) else (false, cs)
    | [] => (false, cs)
  let neg := signSplit.1
  let cs1 := signSplit.2
  match cs1 with
  | [] => none
  | c :: rest =>
    if !c.isDigit then none
    else
      let intSplit : List Char × List Char :=
        if c = '0' then ([c], rest) else digitSpan cs1
      let intDs := intSplit.1
      let cs2 := intSplit.2
      let fracSplit : Option (List Char × List Char) :=
        match cs2 with
        | p :: r2 =>
          if p = '.' then
            let d := digitSpan r2
            if d.1.isEmpty then none else some d
          else some ([], cs2)
        | [] => some ([], cs2)
      match fracSplit with
      | none => none
      | some (fracDs, cs3) =>
        let expSplit : Option (Bool × List Char × List Char) :=
          match cs3 with
          | e :: r4 =>
            if e = 'e' || e = 'E' then
              let signSplit2 : Bool × List Char :=
                match r4 with
                | s :: r5 =>
                  if s = '-' then (true, r5)
                  else if s = '+' then (false, r5) else (false, r4)
                | [] => (false, r4)
              let d := digitSpan signSplit2.2
              if d.1.isEmpty then none else some (signSplit2.1, d.1, d.2)
            else some (false, [], cs3)
          | [] => some (false, [], cs3)
        match expSplit with
        | none => none
        | some (esign, expDs, cs4) =>
          some (decToNum neg intDs fracDs esign expDs, cs4)

mutual

/-- One JSON value, returning the unconsumed rest. -/
def parseVal : Nat → List Char → Option (Json × List Char)
  | 0, _ => none
  | fuel + 1, cs0 =>
    let cs := skipWs cs0
    match cs with
    | [] => none
    | c :: rest =>
      if c = '"' then
        (parseJString (rest.length + 1) rest []).map (fun p => (Json.str p.1, p.2))
      else if c = braceOpen then
        let cs2 := skipWs rest
        match cs2 with
        | c2 :: rest2 =>
          if c2 = braceClose then some (Json.obj [], rest2)
          else (parseMembers fuel cs2 []).map (fun p => (Json.obj p.1, p.2))
        | [] => none
      else if c = '[' then
        let cs2 := skipWs rest
        match cs2 with
        | c2 :: rest2 =>
          if c2 = ']' then some (Json.arr [], rest2)
          else (parseItems fuel cs2 []).map (fun p => (Json.arr p.1, p.2))
        | [] => none
      else if c = 'n' then
        match cs with
        | 'n' :: 'u' :: 'l' :: 'l' :: r => some (Json.null, r)
        | _ => none
      else if c = 't' then
        match cs with
        | 't' :: 'r' :: 'u' :: 'e' :: r => some (Json.bool true, r)
        | _ => none
      else if c = 'f' then
        match cs with
        | 'f' :: 'a' :: 'l' :: 's' :: 'e' :: r => some (Json.bool false, r)
        | _ => none
      else (parseNumber cs).map (fun p => (Json.num p.1, p.2))

/-- Object members after the opening brace (positioned at a key). -/
def parseMembers : Nat → List Char → List (String × Json) →
    Option (List (String × Json) × List Char)
  | 0, _, _ => none
  | fuel + 1, cs, acc =>
    match cs with
    | [] => none
    | c :: rest =>
      if c = '"' then
        match parseJString (rest.length + 1) rest [] with
        | some (k, r1) =>
          match skipWs r1 with
          | d :: r3 =>
            if d = ':' then
              match parseVal fuel r3 with
              | some (v, r4) =>
                match skipWs r4 with
                | e :: r6 =>
                  if e = ',' then parseMembers fuel (skipWs r6) (acc ++ [(k, v)])
                  else if e = braceClose then some (acc ++ [(k, v)], r6)
                  else none
                | [] => none
              | none => none
            else none
          | [] => none
        | none => none
      else none

/-- Array items after the opening bracket (positioned at a value). -/
def parseItems : Nat → List Char → List Json → Option (List Json × List Char)
  | 0, _, _ => none
  | fuel + 1, cs, acc =>
    match parseVal fuel cs with
    | some (v, r1) =>
      match skipWs r1 with
      | e :: r3 =>
        if e = ',' then parseItems fuel r3 (acc ++ [v])
        else if e = ']' then some (acc ++ [v], r3)
        else none
      | [] => none
    | none => none

end

/-- Python json.loads: one value with surrounding whitespace and nothing
after it. -/
def jsonParse (s : String) : Option Json :=
  match parseVal (2 * s.data.length + 8) s.data with
  | some (v, rest) => if (skipWs rest).isEmpty then some v else none
  | none => none

/-! ### Field coercion, llm_analysis.py lines 225-228 -/

/-- Python float(str): optional sign, digits with an optional point on
either side, optional exponent, surrounding whitespace allowed.  The
inf/nan words and digit underscores have no exact value here and are
modelled as failure; nothing in this repository produces them. -/
def pyFloatString (s : String) : Option PyNum :=
  let cs := ((s.data.dropWhile isPyWs).reverse.dropWhile isPyWs).reverse
  let signSplit : Bool × List Char :=
    match cs with
    | c :: rest => if c = '-' then (true, rest) else if c = '+' then (false, rest) else (false, cs)
    | [] => (false, cs)
  let neg := signSplit.1
  let intSplit := digitSpan signSplit.2
  let intDs := intSplit.1
  let fracSplit : List Char × List Char :=
    match intSplit.2 with
    | p :: r2 => if p = '.' then digitSpan r2 else ([], intSplit.2)
    | [] => ([], intSplit.2)
  let fracDs := fracSplit.1
  if intDs.isEmpty && fracDs.isEmpty then none
  else
    match fracSplit.2 with
    | [] => some (decToNum neg intDs fracDs false [])
    | e :: r4 =>
      if e = 'e' || e = 'E' then
        let signSplit2 : Bool × List Char :=
          match r4 with
          | sc :: r5 => if sc = '-' then (true, r5) else if sc = '+' then (false, r5) else (false, r4)
          | [] => (false, r4)
        let d := digitSpan signSplit2.2
        if d.1.isEmpty || !d.2.isEmpty then none
        else some (decToNum neg intDs fracDs signSplit2.1 d.1)
      else none

/-- Python float(x) on a parsed JSON value: numbers pass through, booleans
are ints, numeric strings parse; None, lists and dicts raise (modelled as
none, which the caller turns into the default analysis). -/
def pyFloatJson : Json → Option PyNum
  | Json.num q => some q
  | Json.bool b => some (if b then { mant := 1, exp10 := 0 } else { mant := 0, exp10 := 0 })
  | Json.str s => pyFloatString s
  | _ => none

/-- The normalized analysis dict that analyze_transcript returns: the four
keys the code writes at lines 225-228.  scam_type and reasons may hold any
JSON value; the code does not coerce them. -/
structure Analysis where
  risk_level : String
  scam_type : Json
  reasons : Json
  confidence : PyNum

/-- get_default_analysis, llm_analysis.py lines 248-254. -/
def get_default_analysis : Analysis :=
  { risk_level := "low"
    scam_type := Json.null
    reasons := Json.arr [Json.str "AI analysis temporarily unavailable (quota exceeded or API error)"]
    confidence := { mant := 0, exp10 := 0 } }

/-- Lines 225-228: risk_level defaults to "low" and is lower-cased (a
non-string raises and falls back, hence none); scam_type defaults to None;
reasons defaults to []; confidence goes through float() (an uncoercible
value raises and falls back, hence none). -/
def coerceFields (kvs : List (String × Json)) : Option Analysis :=
  match (jsonGet kvs "risk_level").getD (Json.str "low") with
  | Json.str rl =>
    match pyFloatJson ((jsonGet kvs "confidence").getD (Json.num { mant := 0, exp10 := 0 })) with
    | some conf =>
      some { risk_level := pyLower rl
             scam_type := (jsonGet kvs "scam_type").getD Json.null
             reasons := (jsonGet kvs "reasons").getD (Json.arr [])
             confidence := conf }
    | none => none
  | _ => none

/-- Lines 197-230 as one function of the raw model text: strip fences,
find and slice the balanced-brace span, json.loads it, coerce the fields.
none is any of the failure paths that end in the default analysis. -/
def normalizeResponse (content : String) : Option Analysis :=
  match extractJsonStr (cleanContent content) with
  | none => none
  | some jsonStr =>
    match jsonParse jsonStr with
    | some (Json.obj kvs) => coerceFields kvs
    | _ => none

/-- Modelled from the words of the spec for comparison with normalizeResponse:
extract the outermost balanced brace pair by its declarative
characterization, parse it, coerce the fields. -/
def specNormalize (content : String) : Option Analysis :=
  match specOutermostSpan (cleanContent content) with
  | none => none
  | some jsonStr =>
    match jsonParse jsonStr with
    | some (Json.obj kvs) => coerceFields kvs
    | _ => none

/-! ### The remote call and analyze_transcript, llm_analysis.py lines 145-245 -/

/-- Line 193: result.get("candidates", [dict()])[0].get("content",
dict()).get("parts", [dict()])[0].get("text", "").  Every step that would
raise in Python (indexing an empty or non-list, .get on a non-dict, a
non-string text reaching re.sub) is modelled as none: the enclosing
handler catches the exception and returns the default analysis either way. -/
def getContentText (j : Json) : Option String :=
  match j with
  | Json.obj kvs =>
    match (jsonGet kvs "candidates").getD (Json.arr [Json.obj []]) with
    | Json.arr (c0 :: _) =>
      match c0 with
      | Json.obj ckvs =>
        match (jsonGet ckvs "content").getD (Json.obj []) with
        | Json.obj conkvs =>
          match (jsonGet conkvs "parts").getD (Json.arr [Json.obj []]) with
          | Json.arr (p0 :: _) =>
            match p0 with
            | Json.obj pkvs =>
              match (jsonGet pkvs "text").getD (Json.str "") with
              | Json.str s => some s
              | _ => none
            | _ => none
          | _ => none
        | _ => none
      | _ => none
    | _ => none
  | _ => none

/-- What the remote classification call can come back with: a timeout, a
transport error, or an HTTP response whose JSON body parsed (some) or did
not (none, response.json() raised). -/
inductive RemoteOutcome where
  | timeout
  | netError
  | httpResp (status : Nat) (body : Option Json)

/-- analyze_transcript, llm_analysis.py lines 145-245, as a function of the
configured key, the inputs and the remote outcome.  Every failure path
(missing key, timeout or transport error caught by the outer handler,
non-200 status, unparseable body, missing content, failed extraction,
parse or coercion error) reaches the final return of the default
analysis; only a 200 response whose content normalizes returns early. -/
def analyze_transcript (apiKey : String) (transcript : String) (context : Option String)
    (o : RemoteOutcome) : Analysis :=
  if apiKey = "" then get_default_analysis
  else
    match o with
    | RemoteOutcome.timeout => get_default_analysis
    | RemoteOutcome.netError => get_default_analysis
    | RemoteOutcome.httpResp status body =>
      if status = 200 then
        match body with
        | none => get_default_analysis
        | some j =>
          match getContentText j with
          | none => get_default_analysis
          | some content =>
            match normalizeResponse content with
            | some a => a
            | none => get_default_analysis
      else get_default_analysis

/-- Decision of whether an outcome is one of the remote failures: timeout,
transport error, non-success status, or a 200 response from whose body no
normalized verdict can be extracted. -/
def isRemoteFailure (o : RemoteOutcome) : Bool :=
  match o with
  | RemoteOutcome.timeout => true
  | RemoteOutcome.netError => true
  | RemoteOutcome.httpResp status body =>
    if status ≠ 200 then true
    else
      match body with
      | none => true
      | some j =>
        match getContentText j with
        | none => true
        | some content => (normalizeResponse content).isNone

/-! ### Prompt framing, llm_analysis.py lines 166-170 -/

/-- The last n elements of a list (Python list slicing with a negative
start index: the whole list when it is shorter than n). -/
def takeLast (n : Nat) (l : List α) : List α := l.drop (l.length - n)

/-- Python str.split of a single newline: every separator splits, empty
pieces kept, the empty string giving one empty piece. -/
def splitNlAux : List Char → List Char → List String
  | [], acc => [String.mk acc.reverse]
  | c :: rest, acc =>
    if c = '\n' then String.mk acc.reverse :: splitNlAux rest []
    else splitNlAux rest (c :: acc)

def pySplitNl (s : String) : List String := splitNlAux s.data []

/-- Lines 167-168: context.split of the newline, keep the last two pieces,
join them back; the placeholder when no context came in. -/
def context_short (context : Option String) : String :=
  let context_truncated : List String :=
    match context with
    | some c => if c = "" then [] else takeLast 2 (pySplitNl c)
    | none => []
  if context_truncated.isEmpty then "No context" else String.intercalate "\n" context_truncated

/-- Line 170: the two-part user message sent to the classifier. -/
def message_text (transcript : String) (context : Option String) : String :=
  "Context: " ++ context_short context ++ "\n\nAnalyze: " ++ transcript

/-! ### context_manager.py : TranscriptContext -/

def MAX_CONTEXT_ITEMS : Nat := 10

def CONTEXT_WINDOW_SECONDS : Int := 30

/-- One stored transcript with its arrival time.  The source keeps two
parallel deques (transcripts and timestamps) that are only ever pushed and
dropped together; the paired list is the same state. -/
structure Fragment where
  text : String
  arrivedAt : Int
deriving DecidableEq, Repr

structure TranscriptContext where
  window_seconds : Int
  fragments : List Fragment
deriving DecidableEq, Repr

/-- The TranscriptContext() constructed with the default window. -/
def initCtx : TranscriptContext :=
  { window_seconds := CONTEXT_WINDOW_SECONDS, fragments := [] }

/-- collections.deque(maxlen = m).append: drop the oldest element first
when the deque is full. -/
def dequeAppend (m : Nat) (l : List α) (x : α) : List α :=
  if l.length < m then l ++ [x] else l.drop 1 ++ [x]

/-- add_transcript, context_manager.py lines 31-41: only non-blank text is
stored, paired with the current time. -/
def add_transcript (st : TranscriptContext) (text : String) (now : Int) : TranscriptContext :=
  if pyStrip text = "" then st
  else { st with
         fragments := dequeAppend MAX_CONTEXT_ITEMS st.fragments
           { text := text, arrivedAt := now } }

/-- get_context, lines 43-58: keep the fragments whose timestamp is at
least now minus the window, join their texts with single spaces. -/
def get_context (st : TranscriptContext) (now : Int) : String :=
  let cutoff := now - st.window_seconds
  String.intercalate " "
    ((st.fragments.filter (fun f => decide (cutoff ≤ f.arrivedAt))).map Fragment.text)

/-- get_all_transcripts, lines 60-67. -/
def get_all_transcripts (st : TranscriptContext) : List String :=
  st.fragments.map Fragment.text

/-- A whole run of add_transcript calls, each input a text with its
arrival time. -/
def runAdds (st : TranscriptContext) (inputs : List (String × Int)) : TranscriptContext :=
  inputs.foldl (fun s p => add_transcript s p.1 p.2) st

/-- The inputs as fragments. -/
def toFragList (inputs : List (String × Int)) : List Fragment :=
  inputs.map (fun p => { text := p.1, arrivedAt := p.2 })

/-- The inputs that pass the blank-text guard, as fragments. -/
def validFrags (inputs : List (String × Int)) : List Fragment :=
  (toFragList inputs).filter (fun f => !(pyStrip f.text = ""))

/-! ### transcription.py : transcribe_audio -/

/-- transcribe_audio, transcription.py lines 16-96, as a function of the
configured key, the base64 payload and the outcome the remote call would
produce.  The second component records whether the remote capability was
invoked at all.  An unconfigured key returns None; a payload under 500
characters returns the empty string; only then is the remote call made and
its outcome (transcript, or None on error) passed through. -/
def transcribe_audio (apiKey : String) (audioDataBase64 : String) (remote : Option String) :
    Option String × Bool :=
  if apiKey = "" then (none, false)
  else if audioDataBase64.length < 500 then (some "", false)
  else (remote, true)

/-! ### main.py : the context selection of the handlers -/

/-- The /analyze handler lines 171-178: request.context or the stored
context (Python or-chain, so an empty request context also falls to the
store), then pass it to analyze_transcript unless it equals the request
transcript, in which case pass None. -/
def analyze_endpoint_context (requestTranscript : String) (requestContext : Option String)
    (storeContext : String) : Option String :=
  let context :=
    match requestContext with
    | some c => if c = "" then storeContext else c
    | none => storeContext
  if context = requestTranscript then none else some context

/-- The /process-and-analyze handler lines 229-234: append the new
transcript to the store, then read the whole windowed context from the
updated store; that string is what the analysis call receives. -/
def process_and_analyze_step (st : TranscriptContext) (transcript : String) (now : Int) :
    TranscriptContext × String :=
  let st2 := add_transcript st transcript now
  (st2, get_context st2 now)

/-! ## Helper lemmas -/

theorem braceBal_cons (c : Char) (l : List Char) :
    braceBal (c :: l) = braceDelta c + braceBal l := by
  simp [braceBal]

theorem find?_range_shift (k : Nat) (p : Nat → Bool) :
    (List.range (k + 1)).find? p
      = if p 0 then some 0 else ((List.range k).find? (fun m => p (m + 1))).map (· + 1) := by
  rw [List.range_succ_eq_map]
  by_cases h : p 0
  · rw [List.find?_cons_of_pos _ h, if_pos h]
  · rw [List.find?_cons_of_neg _ h, if_neg h, List.find?_map]
    rfl

theorem scanBrace_spec : ∀ (rest : List Char) (count : Int), 0 < count →
    scanBrace rest count
      = (List.range (rest.length + 1)).find?
          (fun n => decide (count + braceBal (rest.take n) = 0)) := by
  intro rest
  induction rest with
  | nil =>
    intro count hc
    have h0 : (decide (count + braceBal (List.take 0 ([] : List Char)) = 0)) = false := by
      simp [braceBal]; omega
    simp only [List.length_nil, Nat.zero_add, find?_range_shift, h0, Bool.false_eq_true,
      if_false, List.range_zero, List.find?_nil, Option.map_none', scanBrace]
  | cons c r ih =>
    intro count hc
    have hlen : (c :: r).length + 1 = (r.length + 1) + 1 := by simp
    rw [hlen, find?_range_shift]
    have h0 : (decide (count + braceBal ((c :: r).take 0) = 0)) = false := by
      simp [braceBal]; omega
    rw [h0]
    simp only [Bool.false_eq_true, if_false]
    have hsimp : (fun m => decide (count + braceBal ((c :: r).take (m + 1)) = 0))
        = (fun m => decide ((count + braceDelta c) + braceBal (r.take m) = 0)) := by
      funext m
      simp only [List.take_succ_cons, braceBal_cons]
      rw [decide_eq_decide]
      omega
    rw [hsimp]
    by_cases hco : c = braceOpen
    · subst hco
      have hd : braceDelta braceOpen = 1 := by simp [braceDelta]
      rw [hd]
      simp only [scanBrace, if_pos rfl, if_true]
      rw [ih (count + 1) (by omega)]
    · by_cases hcc : c = braceClose
      · subst hcc
        have hd : braceDelta braceClose = -1 := by
          have : ¬ (braceClose = braceOpen) := by decide
          simp [braceDelta, this]
        rw [hd]
        by_cases h1 : count = 1
        · subst h1
          simp only [scanBrace, if_neg (by decide : ¬ (braceClose = braceOpen)), if_pos rfl,
            if_true]
          rw [if_pos (by norm_num)]
          rw [find?_range_shift]
          have hp0 : (decide ((1 : Int) + -1 + braceBal (List.take 0 r) = 0)) = true := by
            simp [braceBal]
          rw [hp0, if_pos rfl]
          rfl
        · simp only [scanBrace, if_neg (by decide : ¬ (braceClose = braceOpen)), if_pos rfl,
            if_true]
          rw [if_neg (by omega : ¬ (count - 1 = 0))]
          rw [ih (count - 1) (by omega)]
          have : (fun n => decide (count - 1 + braceBal (r.take n) = 0))
              = (fun m => decide (count + -1 + braceBal (r.take m) = 0)) := by
            funext n
            rw [decide_eq_decide]
            omega
          rw [this]
      · have hd : braceDelta c = 0 := by simp [braceDelta, hco, hcc]
        rw [hd]
        simp only [scanBrace, if_neg hco, if_neg hcc]
        rw [ih count hc]
        have : (fun n => decide (count + braceBal (r.take n) = 0))
            = (fun m => decide (count + 0 + braceBal (r.take m) = 0)) := by
          funext n
          rw [decide_eq_decide]
          omega
        rw [this]

theorem dropWhile_notOpen_head : ∀ (l : List Char) (c : Char) (r : List Char),
    l.dropWhile notOpenBrace = c :: r → c = braceOpen := by
  intro l
  induction l with
  | nil => intro c r h; simp [List.dropWhile] at h
  | cons a t ih =>
    intro c r h
    rw [List.dropWhile_cons] at h
    by_cases ha : notOpenBrace a = true
    · rw [if_pos ha] at h
      exact ih c r h
    · rw [if_neg ha] at h
      have ha2 : a = braceOpen := by
        simpa [notOpenBrace] using ha
      cases h
      exact ha2

theorem extract_eq (cleaned : String) : extractJsonStr cleaned = specOutermostSpan cleaned := by
  cases hd : cleaned.data.dropWhile notOpenBrace with
  | nil => simp only [extractJsonStr, specOutermostSpan, hd]
  | cons c r =>
    have hc : c = braceOpen := dropWhile_notOpen_head _ _ _ hd
    subst hc
    simp only [extractJsonStr, specOutermostSpan, hd]
    have hscan : scanBrace (braceOpen :: r) 0
        = (List.range ((braceOpen :: r).length + 1)).find?
            (fun n => decide (1 ≤ n) && decide (braceBal ((braceOpen :: r).take n) = 0)) := by
      rw [show (braceOpen :: r).length + 1 = (r.length + 1) + 1 by simp]
      rw [find?_range_shift]
      have h0 : (decide (1 ≤ 0) && decide (braceBal ((braceOpen :: r).take 0) = 0)) = false := by
        simp
      rw [h0]
      simp only [Bool.false_eq_true, if_false]
      simp only [scanBrace, if_pos rfl, if_true, zero_add]
      rw [scanBrace_spec r 1 (by norm_num)]
      have : (fun n => decide ((1 : Int) + braceBal (r.take n) = 0))
          = (fun m => decide (1 ≤ m + 1) && decide (braceBal ((braceOpen :: r).take (m + 1)) = 0)) := by
        funext m
        have h1 : (decide (1 ≤ m + 1)) = true := by simp
        rw [h1, Bool.true_and]
        simp only [List.take_succ_cons, braceBal_cons]
        rw [decide_eq_decide]
        have : braceDelta braceOpen = 1 := by simp [braceDelta]
        rw [this]
      rw [this]
    rw [hscan]

theorem drop_append_le {α : Type _} : ∀ (l₁ l₂ : List α) (n : Nat), n ≤ l₁.length →
    (l₁ ++ l₂).drop n = l₁.drop n ++ l₂ := by
  intro l₁
  induction l₁ with
  | nil =>
    intro l₂ n h
    have : n = 0 := by simpa using h
    subst this
    simp
  | cons a t ih =>
    intro l₂ n h
    cases n with
    | zero => simp
    | succ m =>
      simp only [List.cons_append, List.drop_succ_cons]
      exact ih l₂ m (by simpa using h)

theorem dequeAppend_takeLast {α : Type _} (m : Nat) (hm : 0 < m) (l : List α) (x : α) :
    dequeAppend m (takeLast m l) x = takeLast m (l ++ [x]) := by
  by_cases hlm : l.length < m
  · have h1 : l.length - m = 0 := by omega
    have h2 : l.length + 1 - m = 0 := by omega
    simp [dequeAppend, takeLast, h1, h2, List.length_append, hlm]
  · have hml : m ≤ l.length := by omega
    have hlen : (takeLast m l).length = m := by
      simp only [takeLast, List.length_drop]
      omega
    rw [dequeAppend, if_neg (by omega)]
    simp only [takeLast, List.length_drop, List.length_append, List.length_cons,
      List.length_nil]
    rw [List.drop_drop]
    have h3 : l.length - m + 1 = l.length + 1 - m := by omega
    have h4 : l.length + (0 + 1) - m = l.length + 1 - m := by omega
    rw [h3, h4]
    rw [drop_append_le l [x] (l.length + 1 - m) (by omega)]

theorem validFrags_cons (p : String × Int) (rest : List (String × Int)) :
    validFrags (p :: rest)
      = if pyStrip p.1 = "" then validFrags rest
        else { text := p.1, arrivedAt := p.2 } :: validFrags rest := by
  by_cases h : pyStrip p.1 = "" <;>
    simp [validFrags, toFragList, List.filter_cons, h]

theorem runAdds_fragments_aux :
    ∀ (inputs : List (String × Int)) (st : TranscriptContext) (hist : List Fragment),
    st.fragments = takeLast MAX_CONTEXT_ITEMS hist →
    (runAdds st inputs).fragments = takeLast MAX_CONTEXT_ITEMS (hist ++ validFrags inputs) := by
  intro inputs
  induction inputs with
  | nil =>
    intro st hist h
    simpa [runAdds, validFrags, toFragList] using h
  | cons p rest ih =>
    intro st hist h
    have hstep : runAdds st (p :: rest) = runAdds (add_transcript st p.1 p.2) rest := rfl
    rw [hstep, validFrags_cons]
    by_cases hv : pyStrip p.1 = ""
    · rw [if_pos hv]
      apply ih
      simpa [add_transcript, hv] using h
    · rw [if_neg hv]
      have hadd : (add_transcript st p.1 p.2).fragments
          = takeLast MAX_CONTEXT_ITEMS (hist ++ [{ text := p.1, arrivedAt := p.2 }]) := by
        simp only [add_transcript, if_neg hv]
        rw [h]
        exact dequeAppend_takeLast MAX_CONTEXT_ITEMS (by decide) hist _
      have h2 := ih _ _ hadd
      rw [List.append_assoc, List.singleton_append] at h2
      exact h2

theorem runAdds_fragments (inputs : List (String × Int)) :
    (runAdds initCtx inputs).fragments = takeLast MAX_CONTEXT_ITEMS (validFrags inputs) := by
  have := runAdds_fragments_aux inputs initCtx [] (by rfl)
  simpa using this

theorem validFrags_pairwise (inputs : List (String × Int))
    (h : List.Pairwise (fun a b : Int => a ≤ b) (inputs.map Prod.snd)) :
    List.Pairwise (fun a b : Fragment => a.arrivedAt ≤ b.arrivedAt) (validFrags inputs) := by
  have h1 : List.Pairwise (fun p q : String × Int => p.2 ≤ q.2) inputs :=
    List.pairwise_map.mp h
  have h2 : List.Pairwise (fun a b : Fragment => a.arrivedAt ≤ b.arrivedAt) (toFragList inputs) :=
    List.pairwise_map.mpr h1
  exact h2.filter _

theorem filter_window_all (st : TranscriptContext) (now : Int)
    (h : ∀ f ∈ st.fragments, now - st.window_seconds ≤ f.arrivedAt) :
    st.fragments.filter (fun f => decide (now - st.window_seconds ≤ f.arrivedAt))
      = st.fragments :=
  List.filter_eq_self.mpr (fun f hf => by simpa using h f hf)

/-! ## Claim theorems -/

/-- C3: on the exact response text "Sure! three-backticks json, newline,
the object with risk_level HIGH and confidence 0.9, newline,
three-backticks", normalization produces risk_level "high", confidence
0.9 (the exact decimal 9 times ten to the minus one), the default
scam_type (null) and the default reasons (empty list). -/
theorem claim_C3 :
    normalizeResponse "Sure! ```json\n\x7b\"risk_level\":\"HIGH\",\"confidence\":0.9\x7d\n```"
        = some { risk_level := "high", scam_type := Json.null, reasons := Json.arr [],
                 confidence := { mant := 9, exp10 := -1 } }
    ∧ PyNum.toRat { mant := 9, exp10 := -1 } = 9 / 10 := by
  constructor
  · rfl
  · norm_num [PyNum.toRat]

/-- C6: when every stored fragment arrival time lies inside the query
window, get_context returns exactly the texts of all fragments joined by
single spaces in arrival order. -/
theorem claim_C6 (st : TranscriptContext) (now : Int)
    (h : ∀ f ∈ st.fragments, now - st.window_seconds ≤ f.arrivedAt) :
    get_context st now = String.intercalate " " (st.fragments.map Fragment.text) := by
  simp only [get_context, filter_window_all st now h]

theorem claim_C6_witness :
    (∀ f ∈ (⟨30, [⟨"call me", 0⟩, ⟨"send money", 1⟩]⟩ : TranscriptContext).fragments,
        (2 : Int) - (30 : Int) ≤ f.arrivedAt)
    ∧ get_context ⟨30, [⟨"call me", 0⟩, ⟨"send money", 1⟩]⟩ 2 = "call me send money" := by
  refine ⟨by decide, ?_⟩
  rw [claim_C6 ⟨30, [⟨"call me", 0⟩, ⟨"send money", 1⟩]⟩ 2 (by decide)]
  rfl

/-- C7: add_transcript with a string that is empty after stripping leaves
the whole store state (fragments, their timestamps, and hence the count)
unchanged. -/
theorem claim_C7 (st : TranscriptContext) (text : String) (now : Int)
    (h : pyStrip text = "") :
    add_transcript st text now = st := by
  simp [add_transcript, h]

theorem claim_C7_witness :
    pyStrip "   " = ""
    ∧ add_transcript ⟨30, [⟨"hello", 0⟩]⟩ "   " 5 = ⟨30, [⟨"hello", 0⟩]⟩
    ∧ add_transcript ⟨30, [⟨"hello", 0⟩]⟩ "" 5 = ⟨30, [⟨"hello", 0⟩]⟩ :=
  ⟨rfl, claim_C7 _ "   " 5 rfl, claim_C7 _ "" 5 rfl⟩

/-- C8: when the key is configured and the base64 payload is under the
500-character threshold, transcribe_audio returns the empty string and
never invokes the remote transcription capability, whatever that call
would have produced. -/
theorem claim_C8 (apiKey audioDataBase64 : String) (remote : Option String)
    (hkey : apiKey ≠ "") (hsmall : audioDataBase64.length < 500) :
    transcribe_audio apiKey audioDataBase64 remote = (some "", false) := by
  simp [transcribe_audio, hkey, hsmall]

theorem claim_C8_witness :
    ("k" : String) ≠ "" ∧ ("abc" : String).length < 500
    ∧ transcribe_audio "k" "abc" (some "remote says hi") = (some "", false)
    ∧ transcribe_audio "k" "abc" none = (some "", false) :=
  ⟨by decide, by decide,
   claim_C8 "k" "abc" (some "remote says hi") (by decide) (by decide),
   claim_C8 "k" "abc" none (by decide) (by decide)⟩

/-- C9: with no context available (absent or empty), the message sent to
the classifier carries the explicit "No context" marker, so the prompt is
always a syntactically complete two-part framing. -/
theorem claim_C9 (transcript : String) (context : Option String)
    (h : context = none ∨ context = some "") :
    message_text transcript context
      = "Context: No context" ++ "\n\nAnalyze: " ++ transcript := by
  rcases h with h | h <;> subst h <;> rfl

theorem claim_C9_witness :
    ((none : Option String) = none ∨ (none : Option String) = some "")
    ∧ message_text "please wire funds" none
        = "Context: No context" ++ "\n\nAnalyze: " ++ "please wire funds"
    ∧ message_text "please wire funds" (some "")
        = "Context: No context" ++ "\n\nAnalyze: " ++ "please wire funds" :=
  ⟨Or.inl rfl,
   claim_C9 "please wire funds" none (Or.inl rfl),
   claim_C9 "please wire funds" (some "") (Or.inr rfl)⟩

/-- C10: in the /analyze handler, when the caller supplies no explicit
context (absent or empty) and the stored context text equals the request
transcript, the analysis is invoked with no context at all, so the prompt
states "No context" even though the store is non-empty; the stored context
is passed exactly when it differs from the transcript. -/
theorem claim_C10 (transcript storeContext : String) (requestContext : Option String)
    (hreq : requestContext = none ∨ requestContext = some "") :
    (storeContext = transcript →
        analyze_endpoint_context transcript requestContext storeContext = none
      ∧ message_text transcript (analyze_endpoint_context transcript requestContext storeContext)
          = "Context: No context" ++ "\n\nAnalyze: " ++ transcript)
    ∧ (storeContext ≠ transcript →
        analyze_endpoint_context transcript requestContext storeContext = some storeContext) := by
  have hctx : analyze_endpoint_context transcript requestContext storeContext
      = if storeContext = transcript then none else some storeContext := by
    rcases hreq with h | h <;> subst h <;> simp [analyze_endpoint_context]
  constructor
  · intro hst
    have h1 : analyze_endpoint_context transcript requestContext storeContext = none := by
      rw [hctx, if_pos hst]
    refine ⟨h1, ?_⟩
    rw [h1]
    rfl
  · intro hst
    rw [hctx, if_neg hst]

/-- C1: for every transcript, context and remote failure outcome (timeout,
transport error, non-success status, or a response from which no verdict
normalizes), analyze_transcript returns the fixed default analysis: risk
"low", scam_type null, the single reason naming classifier unavailability,
confidence 0.  In the embedding the function is total, which is the shape
of "never raises to its caller": every Python exception path ends in the
same final return. -/
theorem claim_C1 (apiKey transcript : String) (context : Option String) (o : RemoteOutcome)
    (h : isRemoteFailure o = true) :
    analyze_transcript apiKey transcript context o = get_default_analysis
    ∧ get_default_analysis.risk_level = "low"
    ∧ get_default_analysis.scam_type = Json.null
    ∧ get_default_analysis.reasons
        = Json.arr [Json.str "AI analysis temporarily unavailable (quota exceeded or API error)"]
    ∧ PyNum.toRat get_default_analysis.confidence = 0 := by
  refine ⟨?_, rfl, rfl, rfl, by norm_num [get_default_analysis, PyNum.toRat]⟩
  by_cases hk : apiKey = ""
  · simp [analyze_transcript, hk]
  · cases o with
    | timeout => simp [analyze_transcript, hk]
    | netError => simp [analyze_transcript, hk]
    | httpResp status body =>
      simp only [analyze_transcript, if_neg hk]
      by_cases hs : status = 200
      · subst hs
        rw [if_pos rfl]
        simp only [isRemoteFailure] at h
        rw [if_neg (by simp)] at h
        cases body with
        | none => rfl
        | some j =>
          cases hct : getContentText j with
          | none => simp [hct]
          | some content =>
            simp only [hct] at h ⊢
            cases hn : normalizeResponse content with
            | none => simp [hn]
            | some a =>
              rw [hn] at h
              simp at h
      · rw [if_neg hs]

theorem claim_C1_witness :
    isRemoteFailure RemoteOutcome.timeout = true
    ∧ (analyze_transcript "key" "please send gift cards" none RemoteOutcome.timeout
          = get_default_analysis
      ∧ get_default_analysis.risk_level = "low"
      ∧ get_default_analysis.scam_type = Json.null
      ∧ get_default_analysis.reasons
          = Json.arr [Json.str "AI analysis temporarily unavailable (quota exceeded or API error)"]
      ∧ PyNum.toRat get_default_analysis.confidence = 0) :=
  ⟨rfl, claim_C1 "key" "please send gift cards" none RemoteOutcome.timeout rfl⟩

/-- C2: the normalization step equals its declarative description — slice
the outermost balanced brace pair (least nonempty balanced prefix from the
first opening brace), json.loads it, coerce the fields — and the coercion
gives risk_level the default "low" when missing and lower-cases it when it
is a string, gives reasons the default empty list, and gives confidence the
float default 0.0 when missing while passing a numeric value through. -/
theorem claim_C2 :
    (∀ content, normalizeResponse content = specNormalize content)
    ∧ (∀ kvs a, coerceFields kvs = some a →
        (jsonGet kvs "risk_level" = none → a.risk_level = "low")
        ∧ (∀ s, jsonGet kvs "risk_level" = some (Json.str s) → a.risk_level = pyLower s)
        ∧ (jsonGet kvs "reasons" = none → a.reasons = Json.arr [])
        ∧ (jsonGet kvs "confidence" = none → a.confidence = { mant := 0, exp10 := 0 })
        ∧ (∀ q, jsonGet kvs "confidence" = some (Json.num q) → a.confidence = q)) := by
  constructor
  · intro content
    simp only [normalizeResponse, specNormalize, extract_eq]
  · intro kvs a ha
    simp only [coerceFields] at ha
    split at ha
    case _ rl hrl =>
      split at ha
      case _ conf hconf =>
        cases ha
        refine ⟨?_, ?_, ?_, ?_, ?_⟩
        · intro h
          rw [h] at hrl
          simp only [Option.getD_none] at hrl
          injection hrl with h2
          show pyLower rl = "low"
          rw [← h2]
          rfl
        · intro s hs
          rw [hs] at hrl
          simp only [Option.getD_some] at hrl
          injection hrl with h2
          show pyLower rl = pyLower s
          rw [h2]
        · intro h
          show (jsonGet kvs "reasons").getD (Json.arr []) = Json.arr []
          rw [h]
          rfl
        · intro h
          rw [h] at hconf
          simp only [Option.getD_none, pyFloatJson] at hconf
          injection hconf with h2
          exact h2.symm
        · intro q hq
          rw [hq] at hconf
          simp only [Option.getD_some, pyFloatJson] at hconf
          injection hconf with h2
          exact h2.symm
      case _ hconf => cases ha
    case _ hrl => cases ha

theorem claim_C2_witness :
    normalizeResponse "no braces at all" = specNormalize "no braces at all"
    ∧ coerceFields []
        = some (⟨"low", Json.null, Json.arr [], ⟨0, 0⟩⟩ : Analysis)
    ∧ (⟨"low", Json.null, Json.arr [], ⟨0, 0⟩⟩ : Analysis).risk_level = "low" := by
  refine ⟨claim_C2.1 "no braces at all", rfl, ?_⟩
  have h := claim_C2.2 [] (⟨"low", Json.null, Json.arr [], ⟨0, 0⟩⟩ : Analysis) rfl
  exact h.1 rfl

/-- C4: over every sequence of add_transcript calls the stored count never
exceeds MAX_CONTEXT_ITEMS and the store is exactly the last
MAX_CONTEXT_ITEMS of the non-blank inputs in order (the FIFO
characterization), with timestamps non-decreasing when the clock is; and
one step at capacity drops exactly the oldest fragment, which then no
longer appears among the stored fragments or in get_all_transcripts (when
it is not duplicated elsewhere in the store). -/
theorem claim_C4 :
    (∀ inputs : List (String × Int),
        (runAdds initCtx inputs).fragments.length ≤ MAX_CONTEXT_ITEMS
      ∧ (runAdds initCtx inputs).fragments = takeLast MAX_CONTEXT_ITEMS (validFrags inputs)
      ∧ (List.Pairwise (fun a b : Int => a ≤ b) (inputs.map Prod.snd) →
          List.Pairwise (fun a b : Fragment => a.arrivedAt ≤ b.arrivedAt)
            (runAdds initCtx inputs).fragments))
    ∧ (∀ (st : TranscriptContext) (text : String) (now : Int) (h0 : Fragment)
        (rest : List Fragment),
        st.fragments = h0 :: rest → st.fragments.length = MAX_CONTEXT_ITEMS →
        pyStrip text ≠ "" →
          (add_transcript st text now).fragments = rest ++ [{ text := text, arrivedAt := now }]
        ∧ (h0 ∉ rest → h0 ≠ { text := text, arrivedAt := now } →
            h0 ∉ (add_transcript st text now).fragments)
        ∧ ((∀ f ∈ rest, f.text ≠ h0.text) → h0.text ≠ text →
            h0.text ∉ get_all_transcripts (add_transcript st text now))) := by
  constructor
  · intro inputs
    refine ⟨?_, runAdds_fragments inputs, ?_⟩
    · rw [runAdds_fragments inputs]
      simp only [takeLast, List.length_drop]
      omega
    · intro hmono
      rw [runAdds_fragments inputs]
      simp only [takeLast]
      exact (validFrags_pairwise inputs hmono).drop
  · intro st text now h0 rest hfr hlen hnb
    rw [hfr] at hlen
    have hadd : (add_transcript st text now).fragments
        = rest ++ [{ text := text, arrivedAt := now }] := by
      simp only [add_transcript, if_neg hnb]
      rw [hfr, dequeAppend, if_neg (by simp at hlen ⊢; omega)]
      simp
    refine ⟨hadd, ?_, ?_⟩
    · intro hnotin hne
      rw [hadd]
      simp only [List.mem_append, List.mem_singleton]
      rintro (hc | hc)
      · exact hnotin hc
      · exact hne hc
    · intro htext hne
      simp only [get_all_transcripts, hadd, List.map_append, List.map_cons, List.map_nil]
      simp only [List.mem_append, List.mem_map, List.mem_singleton]
      rintro (⟨f, hf, hfe⟩ | hc)
      · exact htext f hf hfe
      · exact hne hc

theorem claim_C4_witness :
    ((runAdds initCtx [("a", 1), ("b", 2), ("c", 3), ("d", 4), ("e", 5), ("f", 6),
        ("g", 7), ("h", 8), ("i", 9), ("j", 10), ("k", 11)]).fragments.length
          ≤ MAX_CONTEXT_ITEMS
      ∧ (runAdds initCtx [("a", 1), ("b", 2), ("c", 3), ("d", 4), ("e", 5), ("f", 6),
          ("g", 7), ("h", 8), ("i", 9), ("j", 10), ("k", 11)]).fragments
          = takeLast MAX_CONTEXT_ITEMS (validFrags [("a", 1), ("b", 2), ("c", 3), ("d", 4),
              ("e", 5), ("f", 6), ("g", 7), ("h", 8), ("i", 9), ("j", 10), ("k", 11)])
      ∧ List.Pairwise (fun a b : Fragment => a.arrivedAt ≤ b.arrivedAt)
          (runAdds initCtx [("a", 1), ("b", 2), ("c", 3), ("d", 4), ("e", 5), ("f", 6),
            ("g", 7), ("h", 8), ("i", 9), ("j", 10), ("k", 11)]).fragments)
    ∧ ((add_transcript ⟨30, [⟨"f1", 1⟩, ⟨"f2", 2⟩, ⟨"f3", 3⟩, ⟨"f4", 4⟩, ⟨"f5", 5⟩,
          ⟨"f6", 6⟩, ⟨"f7", 7⟩, ⟨"f8", 8⟩, ⟨"f9", 9⟩, ⟨"f10", 10⟩]⟩ "fresh" 11).fragments
          = [⟨"f2", 2⟩, ⟨"f3", 3⟩, ⟨"f4", 4⟩, ⟨"f5", 5⟩, ⟨"f6", 6⟩, ⟨"f7", 7⟩, ⟨"f8", 8⟩,
             ⟨"f9", 9⟩, ⟨"f10", 10⟩] ++ [⟨"fresh", 11⟩]
      ∧ (⟨"f1", 1⟩ : Fragment) ∉ (add_transcript ⟨30, [⟨"f1", 1⟩, ⟨"f2", 2⟩, ⟨"f3", 3⟩,
          ⟨"f4", 4⟩, ⟨"f5", 5⟩, ⟨"f6", 6⟩, ⟨"f7", 7⟩, ⟨"f8", 8⟩, ⟨"f9", 9⟩,
          ⟨"f10", 10⟩]⟩ "fresh" 11).fragments
      ∧ "f1" ∉ get_all_transcripts (add_transcript ⟨30, [⟨"f1", 1⟩, ⟨"f2", 2⟩, ⟨"f3", 3⟩,
          ⟨"f4", 4⟩, ⟨"f5", 5⟩, ⟨"f6", 6⟩, ⟨"f7", 7⟩, ⟨"f8", 8⟩, ⟨"f9", 9⟩,
          ⟨"f10", 10⟩]⟩ "fresh" 11)) := by
  refine ⟨?_, ?_⟩
  · obtain ⟨h1, h2, h3⟩ := claim_C4.1 [("a", 1), ("b", 2), ("c", 3), ("d", 4), ("e", 5),
      ("f", 6), ("g", 7), ("h", 8), ("i", 9), ("j", 10), ("k", 11)]
    exact ⟨h1, h2, h3 (by decide)⟩
  · obtain ⟨h1, h2, h3⟩ := claim_C4.2 ⟨30, [⟨"f1", 1⟩, ⟨"f2", 2⟩, ⟨"f3", 3⟩, ⟨"f4", 4⟩,
      ⟨"f5", 5⟩, ⟨"f6", 6⟩, ⟨"f7", 7⟩, ⟨"f8", 8⟩, ⟨"f9", 9⟩, ⟨"f10", 10⟩]⟩ "fresh" 11
      ⟨"f1", 1⟩ [⟨"f2", 2⟩, ⟨"f3", 3⟩, ⟨"f4", 4⟩, ⟨"f5", 5⟩, ⟨"f6", 6⟩, ⟨"f7", 7⟩,
      ⟨"f8", 8⟩, ⟨"f9", 9⟩, ⟨"f10", 10⟩] rfl (by decide) (by decide)
    exact ⟨h1, h2 (by decide) (by decide), h3 (by decide) (by decide)⟩

/-- C5: the /process-and-analyze handler appends the new transcript before
classification, so the context its analysis call receives is the stored
texts followed by the new transcript, space-joined (when the store is
under capacity and everything is in the window); in particular after
"Hello", "Please send a gift card", "It is urgent" (apostrophe escaped in the
literals below) the context of the third call
is the space-joined concatenation of all three, and the classifier message
carries it whole (the last-2-lines truncation keeps a single-line context
intact). -/
theorem claim_C5 :
    (∀ (st : TranscriptContext) (transcript : String) (now : Int),
        st.fragments.length < MAX_CONTEXT_ITEMS →
        pyStrip transcript ≠ "" →
        0 ≤ st.window_seconds →
        (∀ f ∈ st.fragments, now - st.window_seconds ≤ f.arrivedAt) →
        (process_and_analyze_step st transcript now).2
          = String.intercalate " " (get_all_transcripts st ++ [transcript]))
    ∧ ((process_and_analyze_step
          (runAdds initCtx [("Hello", 0), ("Please send a gift card", 1)]) "It\x27s urgent" 2).2
        = "Hello Please send a gift card It\x27s urgent"
      ∧ message_text "It\x27s urgent"
          (some (process_and_analyze_step
            (runAdds initCtx [("Hello", 0), ("Please send a gift card", 1)])
            "It\x27s urgent" 2).2)
        = "Context: Hello Please send a gift card It\x27s urgent\n\nAnalyze: It\x27s urgent") := by
  refine ⟨?_, rfl, rfl⟩
  intro st transcript now hlen hnb hw hwin
  have hfr : (add_transcript st transcript now).fragments
      = st.fragments ++ [{ text := transcript, arrivedAt := now }] := by
    simp only [add_transcript, if_neg hnb, dequeAppend, if_pos hlen]
  have hwnd : (add_transcript st transcript now).window_seconds = st.window_seconds := by
    simp [add_transcript, hnb]
  show get_context (add_transcript st transcript now) now = _
  simp only [get_context, hfr, hwnd]
  rw [List.filter_append, filter_window_all st now hwin]
  have hnew : List.filter (fun f : Fragment => decide (now - st.window_seconds ≤ f.arrivedAt))
      ([{ text := transcript, arrivedAt := now }] : List Fragment)
      = ([{ text := transcript, arrivedAt := now }] : List Fragment) := by
    apply List.filter_eq_self.mpr
    intro f hf
    simp only [List.mem_singleton] at hf
    subst hf
    simpa using (by omega : now - st.window_seconds ≤ now)
  rw [hnew]
  simp [get_all_transcripts, List.map_append]

theorem claim_C5_witness :
    (⟨30, [⟨"Hello", 0⟩]⟩ : TranscriptContext).fragments.length < MAX_CONTEXT_ITEMS
    ∧ pyStrip "now pay me" ≠ ""
    ∧ (process_and_analyze_step ⟨30, [⟨"Hello", 0⟩]⟩ "now pay me" 1).2
        = String.intercalate " " (get_all_transcripts ⟨30, [⟨"Hello", 0⟩]⟩ ++ ["now pay me"]) :=
  ⟨by decide, by decide,
   claim_C5.1 ⟨30, [⟨"Hello", 0⟩]⟩ "now pay me" 1 (by decide) (by decide) (by decide) (by decide)⟩

theorem claim_C10_witness :
    (analyze_endpoint_context "we need gift cards" none "we need gift cards" = none
      ∧ message_text "we need gift cards"
          (analyze_endpoint_context "we need gift cards" none "we need gift cards")
          = "Context: No context" ++ "\n\nAnalyze: " ++ "we need gift cards")
    ∧ analyze_endpoint_context "we need gift cards" none "earlier talk" = some "earlier talk" :=
  ⟨(claim_C10 "we need gift cards" "we need gift cards" none (Or.inl rfl)).1 rfl,
   (claim_C10 "we need gift cards" "earlier talk" none (Or.inl rfl)).2 (by decide)⟩

end ScamDetect
